import Mathlib

/-!
Shallow embedding of the Path_reduplicator identity-resolution pipeline
(src/app/features.py, src/app/deduper.py, src/app/db.py, src/app/model_store.py,
src/app/config.py, src/training/prepare_pairs.py, src/training/train_ranker.py)
and proofs of the frozen claims about it.

Numbers are modelled with ℚ (Python floats; all constants in the code are
exact decimals), Python str-or-None values with Option String, dates with a
proleptic-Gregorian day count, and fallible code with Except/Option.
-/

namespace PathRedup

/-! ## Dates (datetime.date)

`features.dob_delta_days` subtracts two `datetime.date` values and takes the
absolute day difference.  `datetime.date` is the proleptic Gregorian calendar;
`daysFromCivil` is the standard civil-date-to-day-number map, so subtraction of
day numbers is exactly `(da - db).days`. -/

structure PyDate where
  year : Int
  month : Nat
  day : Nat
deriving Repr, DecidableEq

def daysFromCivil (dt : PyDate) : Int :=
  let y : Int := if dt.month ≤ 2 then dt.year - 1 else dt.year
  let era : Int := (if 0 ≤ y then y else y - 399) / 400
  let yoe : Nat := (y - era * 400).toNat
  let mp : Nat := (dt.month + 9) % 12
  let doy : Nat := (153 * mp + 2) / 5 + dt.day - 1
  let doe : Nat := yoe * 365 + yoe / 4 - yoe / 100 + doy
  era * 146097 + (doe : Int) - 719468

/-! ## Python str methods

Kernel-computable models of the `str` methods the feature code uses:
`str.lower`, `str.strip` (no argument: strip whitespace both ends) and
`str.split` (no argument: split on whitespace runs, dropping empties). -/

def isWs (c : Char) : Bool := c.isWhitespace

def pyLower (s : String) : String := String.mk (s.data.map Char.toLower)

def trimChars (l : List Char) : List Char :=
  ((l.dropWhile isWs).reverse.dropWhile isWs).reverse

def pyStrip (s : String) : String := String.mk (trimChars s.data)

def splitWsAux : List Char → List Char → List String
  | [], cur => if cur.isEmpty then [] else [String.mk cur.reverse]
  | c :: cs, cur =>
    if isWs c then
      (if cur.isEmpty then splitWsAux cs []
        else String.mk cur.reverse :: splitWsAux cs [])
    else splitWsAux cs (c :: cur)

def pySplitWs (s : String) : List String := splitWsAux s.data []

/-! ## src/app/features.py -/

/-- Python truthiness of an optional string (`if a:`): `None` and `""` are
falsy, every other string truthy. -/
def truthy (a : Option String) : Bool := (a.getD "") ≠ ""

/-- `exact_match` (features.py line 21): `1.0 if a and b and a == b else 0.0`. -/
def exact_match (a b : Option String) : ℚ :=
  if truthy a ∧ truthy b ∧ a = b then 1 else 0

/-- features.py line 26. -/
def phone_match (a b : Option String) : ℚ := exact_match a b

/-- features.py line 30. -/
def email_match (a b : Option String) : ℚ := exact_match a b

/-- features.py line 34. -/
def govid_match (a b : Option String) : ℚ := exact_match a b

/-- The whitespace tokens of `(s or "").lower().split()`: Python str.split()
with no argument drops empty tokens. -/
def tokens (a : Option String) : List String :=
  pySplitWs (pyLower (a.getD ""))

/-- `addr_overlap` (features.py line 38): Jaccard overlap of whitespace token
sets of the lower-cased address lines, 0 when either side has no tokens. -/
def addr_overlap (a b : Option String) : ℚ :=
  let sa := (tokens a).toFinset
  let sb := (tokens b).toFinset
  if sa = ∅ ∨ sb = ∅ then 0
  else ((sa ∩ sb).card : ℚ) / ((sa ∪ sb).card : ℚ)

/-- `pincode_match` (features.py line 47): both sides stripped; empty gives 0,
equality 1, equal first five of six characters 1/2, otherwise 0. -/
def pincode_match (a b : Option String) : ℚ :=
  let a1 := pyStrip (a.getD "")
  let b1 := pyStrip (b.getD "")
  if a1 = "" ∨ b1 = "" then 0
  else if a1 = b1 then 1
  else if a1.length = 6 ∧ b1.length = 6 ∧ a1.take 5 = b1.take 5 then 1/2
  else 0

/-- `dob_delta_days` (features.py line 60): absolute day difference of the two
dates, 9999.0 when either is missing. -/
def dob_delta_days (a b : Option PyDate) : ℚ :=
  match a, b with
  | some da, some db => ((daysFromCivil da - daysFromCivil db).natAbs : ℚ)
  | _, _ => 9999

/-! ### Jaro-Winkler (rapidfuzz.distance.JaroWinkler.normalized_similarity)

features.py line 6 wraps rapidfuzz, an external library: the wrapper lowers
and strips both sides and returns 0 for empty input; otherwise rapidfuzz's
normalized Jaro-Winkler similarity (prefix weight 1/10, boost threshold 7/10,
prefix capped at 4, transposition count halved by integer division). -/

/-- The match window: `max(len_a, len_b) // 2 - 1`, clamped at 0 (Nat
subtraction). -/
def jwWindow (la lb : Nat) : Nat := max la lb / 2 - 1

/-- Index of the first not-yet-flagged character of `b` equal to `c` inside
the window `[lo, hi)`. -/
def findUnmatched (c : Char) (b : List Char) (flags : List Bool) (lo hi : Nat) :
    Option Nat :=
  (List.range b.length).find?
    (fun j => lo ≤ j ∧ j < hi ∧ flags.getD j true = false ∧ b.getD j ' ' = c)

/-- Greedy left-to-right Jaro matching: returns the matched characters of `a`
in order and the match flags over `b`. -/
def jaroScan (a b : List Char) (w : Nat) : List Char × List Bool :=
  a.enum.foldl
    (fun st ic =>
      match findUnmatched ic.2 b st.2 (ic.1 - w) (min b.length (ic.1 + w + 1)) with
      | some j => (st.1 ++ [ic.2], st.2.set j true)
      | none => st)
    ([], List.replicate b.length false)

/-- Jaro similarity of two strings. -/
def jaroSim (s t : String) : ℚ :=
  let a := s.data
  let b := t.data
  if a.isEmpty ∧ b.isEmpty then 1
  else if a.isEmpty ∨ b.isEmpty then 0
  else
    let scan := jaroScan a b (jwWindow a.length b.length)
    let ma := scan.1
    let mb := ((b.enum).filter (fun jc => scan.2.getD jc.1 false)).map (fun jc => jc.2)
    let m := ma.length
    if m = 0 then 0
    else
      let t2 := ((ma.zip mb).filter (fun p => p.1 ≠ p.2)).length
      ((m : ℚ) / a.length + (m : ℚ) / b.length + ((m : ℚ) - (t2 / 2 : Nat)) / m) / 3

/-- Length of the common leading run of two character lists. -/
def commonRunLen : List Char → List Char → Nat
  | x :: xs, y :: ys => if x = y then commonRunLen xs ys + 1 else 0
  | _, _ => 0

/-- Jaro-Winkler similarity: prefix bonus (capped at 4, weight 1/10) applied
when the Jaro similarity exceeds 7/10. -/
def jaroWinklerSim (s t : String) : ℚ :=
  let sim := jaroSim s t
  if 7/10 < sim then
    sim + (min (commonRunLen s.data t.data) 4 : ℚ) * (1/10) * (1 - sim)
  else sim

/-- `jw` (features.py line 6): lower and strip both sides; empty gives 0,
otherwise the normalized Jaro-Winkler similarity. -/
def jw (a b : Option String) : ℚ :=
  let a1 := pyStrip (pyLower (a.getD ""))
  let b1 := pyStrip (pyLower (b.getD ""))
  if a1 = "" ∨ b1 = "" then 0 else jaroWinklerSim a1 b1

/-! ### feature_row (features.py line 73) -/

/-- The query/candidate dictionaries feature_row reads with `.get`: a missing
key reads as `none`, exactly like `dict.get` returning `None`. -/
structure IdentityFields where
  full_name : Option String
  dob : Option PyDate
  phone_e164 : Option String
  email_norm : Option String
  gov_id_norm : Option String
  addr_line : Option String
  city : Option String
  state : Option String
  postal_code : Option String
deriving Repr, DecidableEq

/-- `feature_row(query, candidate, vdist)`: the fixed-order 10-entry feature
vector of features.py lines 80-91. -/
def feature_row (query candidate : IdentityFields) (vdist : ℚ) : List ℚ :=
  [ 1 / (1 + vdist),
    jw query.full_name candidate.full_name,
    phone_match query.phone_e164 candidate.phone_e164,
    email_match query.email_norm candidate.email_norm,
    govid_match query.gov_id_norm candidate.gov_id_norm,
    addr_overlap query.addr_line candidate.addr_line,
    jw query.city candidate.city,
    jw query.state candidate.state,
    pincode_match query.postal_code candidate.postal_code,
    dob_delta_days query.dob candidate.dob ]

/-! ## src/app/config.py -/

namespace Config

/-- config.py line 18: `VECTOR_DIM = 512`. -/
def VECTOR_DIM : Nat := 512

/-- config.py line 17: default of `THRESHOLD` (env override absent). -/
def THRESHOLD : ℚ := 82/100

/-- config.py line 16: default of `TOPK` (env override absent). -/
def TOPK : Nat := 200

end Config

/-! ## src/app/db.py -/

/-- The rows `topk_by_vector` returns: the eleven columns of its SELECT
(db.py lines 50-53), in order: customer_id, vdist, full_name, dob,
phone_e164, email_norm, gov_id_norm, addr_line, city, state, postal_code.
A tuple index `row[i]` is the i-th field of this structure. -/
structure TopkRow where
  customer_id : Nat
  vdist : ℚ
  full_name : Option String
  dob : Option PyDate
  phone_e164 : Option String
  email_norm : Option String
  gov_id_norm : Option String
  addr_line : Option String
  city : Option String
  state : Option String
  postal_code : Option String
deriving Repr, DecidableEq

/-- `to_vec_array` (db.py line 9): raises ValueError when the vector's length
differs from `Config.VECTOR_DIM`, otherwise converts to a float32 array
(modelled as the identity; the claims concern only the length check). -/
def to_vec_array (vec : List ℚ) : Except String (List ℚ) :=
  if vec.length ≠ Config.VECTOR_DIM then
    Except.error "expected vector of length Config.VECTOR_DIM"
  else Except.ok vec

/-- `topk_by_vector` (db.py line 36): validates the query vector through
`to_vec_array` first, then runs the SELECT against the store.  The store
(Oracle) is external, so its insert/query/delete round trip is abstracted as
`engine`, mapping the validated array and `k` to the fetched rows. -/
def topk_by_vector (engine : List ℚ → Nat → List TopkRow) (query_vec : List ℚ)
    (k : Nat) : Except String (List TopkRow) :=
  (to_vec_array query_vec).map (fun qarr => engine qarr k)

/-! ## src/app/deduper.py -/

/-- The candidate dictionary (deduper.py lines 22-33).  `candidate_dict`
builds it from a retrieved row by position: keys customer_id, vdist,
full_name, dob, phone_e164, email_norm, gov_id_norm, city, state.  The
`fields` component is what `feature_row` reads with `.get`. -/
structure CandRec where
  customer_id : Nat
  vdist : ℚ
  fields : IdentityFields
deriving Repr, DecidableEq

/-- `candidate_dict(row)` (deduper.py lines 22-33), index by index:
row[0] → customer_id, row[1] → vdist, row[2] → full_name, row[3] → dob,
row[4] → phone_e164, row[5] → email_norm, row[6] → gov_id_norm,
row[7] → "city", row[8] → "state".  In the SELECT of db.py lines 50-53,
row[7] is the addr_line column and row[8] is the city column; the dict has
no "addr_line" and no "postal_code" key, so `.get` on them yields None. -/
def candidate_dict (row : TopkRow) : CandRec :=
  { customer_id := row.customer_id
    vdist := row.vdist
    fields :=
      { full_name := row.full_name
        dob := row.dob
        phone_e164 := row.phone_e164
        email_norm := row.email_norm
        gov_id_norm := row.gov_id_norm
        city := row.addr_line
        state := row.city
        addr_line := none
        postal_code := none } }

/-- A candidate dictionary after `c["score"] = float(p)` (deduper.py line 56). -/
structure ScoredCand where
  cand : CandRec
  score : ℚ
deriving Repr, DecidableEq

/-- The dictionary `check_duplicate` returns (deduper.py lines 52 and 60-65). -/
structure Decision where
  is_duplicate : Bool
  best_match : Option ScoredCand
  score : ℚ
  candidates : List ScoredCand
deriving Repr, DecidableEq

/-- Stable insertion of `x` into a descending-by-key list: `x` goes before the
first element of strictly smaller key, hence after all equal keys. -/
def insertDesc {α : Type} (key : α → ℚ) (x : α) : List α → List α
  | [] => [x]
  | y :: ys => if key y < key x then x :: y :: ys else y :: insertDesc key x ys

/-- Stable descending sort by key: the semantics of Python's
`list.sort(key=..., reverse=True)` (deduper.py line 58), which is a stable
sort read in descending key order. -/
def sortDesc {α : Type} (key : α → ℚ) (l : List α) : List α :=
  l.foldl (fun acc x => insertDesc key x acc) []

/-- `candidates` with scores attached: deduper.py lines 49 and 54-56 compute
`X[i] = feature_row(q, c_i, c_i.vdist)`, `probs = predict_proba(model, X)`
and zip the probabilities back onto the candidates; with `predict_proba`
row-wise this is one map. -/
def scored_candidates (q : IdentityFields) (rows : List TopkRow)
    (scoreRow : List ℚ → ℚ) : List ScoredCand :=
  (rows.map candidate_dict).map
    (fun c => { cand := c, score := scoreRow (feature_row q c.fields c.vdist) })

/-- `check_duplicate` (deduper.py lines 35-65) after retrieval: the query
dictionary `q`, the retrieved rows, and the active model's positive-class
probability (a function of the feature row) are its inputs; normalization,
embedding and the store round trip are the external steps that produced
them.  Empty retrieval returns the fixed empty decision (line 52); otherwise
the candidates are sorted stably by descending score, the best is compared
with the threshold and the top 10 are returned (lines 58-65). -/
def check_duplicate (q : IdentityFields) (rows : List TopkRow)
    (scoreRow : List ℚ → ℚ) (threshold : ℚ) : Decision :=
  let scored := scored_candidates q rows scoreRow
  if scored.isEmpty then
    { is_duplicate := false, best_match := none, score := 0, candidates := [] }
  else
    match sortDesc ScoredCand.score scored with
    | [] => { is_duplicate := false, best_match := none, score := 0, candidates := [] }
    | best :: rest =>
      { is_duplicate := decide (threshold ≤ best.score)
        best_match := some best
        score := best.score
        candidates := (best :: rest).take 10 }

/-! ## src/app/model_store.py -/

/-- `RuleBasedClassifier.predict_proba`, one row (model_store.py lines 44-63):
the positive-class score of the unpacked 10-entry feature row. -/
def rule_based_score (vsim name_sim phone_m email_m govid_m addr_ov city_sim
    state_sim pincode_m dob_delta : ℚ) : ℚ :=
  if 1 ≤ govid_m then 99/100
  else
    let s0 := 0 + (4/10) * phone_m + (4/10) * email_m + (1/10) * vsim
      + (1/10) * name_sim + (5/100) * addr_ov + (5/100) * city_sim
      + (3/100) * state_sim + (5/100) * pincode_m
    let s1 := if (phone_m ≠ 0 ∨ email_m ≠ 0 ∨ 0 < name_sim) ∧ dob_delta < 365 then
        (if dob_delta < 30 then s0 + 1/10 else s0 + 5/100)
      else s0
    min s1 (99/100)

/-- One iteration of the loop in `RuleBasedClassifier.predict_proba`
(model_store.py lines 31-66): the row is unpacked into ten names (any other
arity raises, modelled as `none`); the result row is `(1 - score, score)`. -/
def rule_predict_proba_row (row : List ℚ) : Option (ℚ × ℚ) :=
  match row with
  | [vsim, name_sim, phone_m, email_m, govid_m, addr_ov, city_sim, state_sim,
      pincode_m, dob_delta] =>
    let s := rule_based_score vsim name_sim phone_m email_m govid_m addr_ov
      city_sim state_sim pincode_m dob_delta
    some (1 - s, s)
  | _ => none

/-- `RuleBasedClassifier.predict_proba(X)` (model_store.py line 28): the
row-wise loop of lines 31-67. -/
def rule_predict_proba : List (List ℚ) → Option (List (ℚ × ℚ))
  | [] => some []
  | row :: rest => do
    let r ← rule_predict_proba_row row
    let rs ← rule_predict_proba rest
    pure (r :: rs)

/-- Module-level `predict_proba(model, X)` for the rule-based model
(model_store.py lines 95-106): the classifier always produces two columns, so
the single-column branch is not taken and the positive column is returned. -/
def predict_proba_pos (X : List (List ℚ)) : Option (List ℚ) :=
  (rule_predict_proba X).map (List.map Prod.snd)

/-- A classifier artifact: the `_DEFAULT` rule-based fallback or a trained
pickle, distinguished because the claims compare identities of loaded
models. -/
inductive Model where
  | ruleBased : Model
  | trained : Nat → Model
deriving Repr, DecidableEq

/-- First-match association lookup: Python dict/file lookup keyed by path. -/
def pathLookup (entries : List (String × Model)) (path : String) : Option Model :=
  (entries.find? (fun e => e.1 = path)).map (fun e => e.2)

/-- `load_model(path)` (model_store.py lines 81-89) over explicit state: the
process-wide `_CACHE` and the file system `disk`.  A cache hit returns the
cached model unchanged; otherwise the file is unpickled (or the `_DEFAULT`
rule-based model taken when absent) and cached.  Returns the model and the
new cache. -/
def load_model (path : String) (cache disk : List (String × Model)) :
    Model × List (String × Model) :=
  match pathLookup cache path with
  | some m => (m, cache)
  | none =>
    let m := match pathLookup disk path with
      | some dm => dm
      | none => Model.ruleBased
    (m, (path, m) :: cache)

/-- `save_model(model, path)` (model_store.py lines 91-93): writes the pickle
at `path` and touches nothing else - in particular `_CACHE` is left as it
is. -/
def save_model (m : Model) (path : String) (disk : List (String × Model)) :
    List (String × Model) :=
  (path, m) :: disk

/-! ## src/training/prepare_pairs.py -/

/-- The chunk size actually in force when the pair loop of
`prepare_pairs.main` runs (lines 172-291): when the input rows carry an
`identity_vec` column the `chunk_size` parameter is untouched; otherwise the
embedding block reuses the name for its batch size, `chunk_size = 64`
(line 277), so the flush threshold of the pair loop becomes 64. -/
def effective_chunk_size (hasIdentityVec : Bool) (chunk_size : Nat) : Nat :=
  if hasIdentityVec then chunk_size else 64

/-- One pair emission (prepare_pairs.py lines 369-380 and 386-393):
`pairs.append(...)`, then `if len(pairs) >= chunk_size: _write_chunk(pairs);
pairs = []`.  State: the in-memory buffer and the chunks written so far. -/
def emit_step {α : Type} (cs : Nat) (st : List α × List (List α)) (p : α) :
    List α × List (List α) :=
  let buf := st.1 ++ [p]
  if cs ≤ buf.length then ([], st.2 ++ [buf]) else (buf, st.2)

/-- The emission loop over all pairs the run produces, in order. -/
def emit_run {α : Type} (cs : Nat) (ps : List α) : List α × List (List α) :=
  ps.foldl (emit_step cs) ([], [])

/-- The sequence of chunks `_write_chunk` receives over a run that emits
`ps`: the intermediate flushes plus the final `_write_chunk(pairs)` of
line 396, which writes nothing for an empty buffer (lines 310-311/318-319). -/
def pair_chunks {α : Type} (hasIdentityVec : Bool) (chunk_size : Nat)
    (ps : List α) : List (List α) :=
  let st := emit_run (effective_chunk_size hasIdentityVec chunk_size) ps
  if st.1.isEmpty then st.2 else st.2 ++ [st.1]

/-- Stable insertion of `x` into an ascending-by-key list. -/
def insertAsc {α : Type} (key : α → ℚ) (x : α) : List α → List α
  | [] => [x]
  | y :: ys => if key x < key y then x :: y :: ys else y :: insertAsc key x ys

/-- Ascending sort by key: `np.argsort(dists)` over the id/distance table. -/
def sortAsc {α : Type} (key : α → ℚ) (l : List α) : List α :=
  l.foldl (fun acc x => insertAsc key x acc) []

/-- `_hard_negative` (prepare_pairs.py lines 100-135), in-memory branch:
`cands` pairs each stored customer_id with its distance to the query vector
(`np.linalg.norm(all_vecs - q)` is the external numeric step); the ids are
walked in ascending distance order and the first one not in `exclude_ids` is
returned, `none` when every id is excluded. -/
def hard_negative (cands : List (Nat × ℚ)) (exclude_ids : List Nat) : Option Nat :=
  ((sortAsc (fun p => p.2) cands).map Prod.fst).find?
    (fun cid => ¬ cid ∈ exclude_ids)

/-- The pairs one query row of a duplicate cluster emits
(prepare_pairs.py lines 357-393), as (cand_customer_id, label):
`positives = [cand_id for cand_id in ids if cand_id != cid]`, down-sampled
by `random.sample` (modelled by the oracle `sample`) when over the
`max_pos_per_query` cap, each emitted with label 1; then the query's hard
negative, when found, with label 0.  `max_pairs` is `None` here (its default;
with a cap the loop only stops earlier). -/
def emitted_for_query (ids : List Nat) (cid : Nat)
    (sample : List Nat → Nat → List Nat) (maxPos : Option Nat)
    (negId : Option Nat) : List (Nat × Nat) :=
  let positives0 := ids.filter (fun x => x ≠ cid)
  let positives := match maxPos with
    | none => positives0
    | some m => if m < positives0.length then sample positives0 m else positives0
  positives.map (fun cand => (cand, 1)) ++
    (match negId with | some n => [(n, 0)] | none => [])

/-- The pairs a whole cluster emits (prepare_pairs.py lines 332-393), as
(query customer_id, cand_customer_id, label): clusters of size at most 1 are
skipped (`if len(group) <= 1: continue`, line 335); otherwise every member
acts as query. -/
def group_pairs (ids : List Nat) (cands : List (Nat × ℚ))
    (sample : List Nat → Nat → List Nat) (maxPos : Option Nat) :
    List (Nat × Nat × Nat) :=
  if ids.length ≤ 1 then []
  else
    (ids.map (fun cid =>
      (emitted_for_query ids cid sample maxPos (hard_negative cands ids)).map
        (fun p => (cid, p.1, p.2)))).flatten

/-! ## src/training/train_ranker.py -/

/-- The top-level names src/app/db.py defines (db.py lines 5, 9 and 36). -/
def app_db_defs : List String := ["get_conn", "to_vec_array", "topk_by_vector"]

/-- The names train_ranker.py imports from app.db at module import time
(train_ranker.py lines 40 and 45). -/
def train_ranker_db_imports : List String :=
  ["get_conn", "to_vec_array", "ensure_query_identity_table"]

/-- The structured result of `train_ranker.main` on a missing pairs file. -/
structure TrainResult where
  success : Bool
  message : String
deriving Repr, DecidableEq

/-- The missing-file branch of `train_ranker.main` (lines 112-118): when a
`pairs_path` is supplied and no file exists there, the structured failure is
returned; otherwise the branch falls through (`none`) to training. -/
def train_ranker_missing_branch (fileExists : Bool) (pairs_path : String) :
    Option TrainResult :=
  if fileExists = false then
    some { success := false, message := "Training data not found: " ++ pairs_path }
  else none

/-! ## Concrete fixtures used by evaluation theorems and witnesses -/

/-- A query dictionary whose address fields equal the stored row's. -/
def c1Query : IdentityFields :=
  { full_name := some "john doe", dob := none, phone_e164 := none
    email_norm := none, gov_id_norm := none, addr_line := some "mg rd"
    city := some "pune", state := some "ka", postal_code := some "560001" }

/-- A stored row identical to `c1Query` on the address fields. -/
def c1Row : TopkRow :=
  { customer_id := 7, vdist := 0, full_name := some "john doe", dob := none
    phone_e164 := none, email_norm := none, gov_id_norm := none
    addr_line := some "mg rd", city := some "pune", state := some "ka"
    postal_code := some "560001" }

/-- A stored row with every optional field absent. -/
def c2Row : TopkRow :=
  { customer_id := 1, vdist := 0, full_name := none, dob := none
    phone_e164 := none, email_norm := none, gov_id_norm := none
    addr_line := none, city := none, state := none, postal_code := none }

/-- A query dictionary with every field absent. -/
def c2Query : IdentityFields :=
  { full_name := none, dob := none, phone_e164 := none, email_norm := none
    gov_id_norm := none, addr_line := none, city := none, state := none
    postal_code := none }

/-- A constant scoring function standing in for a loaded classifier. -/
def c2Score : List ℚ → ℚ := fun _ => 1/2

/-- The scored candidate `check_duplicate` builds from `c2Row`. -/
def c2Cand : ScoredCand := { cand := candidate_dict c2Row, score := 1/2 }

/-- The take-a-prefix sampler used to instantiate the sampling oracle. -/
def takeSample : List Nat → Nat → List Nat := fun l k => l.take k

end PathRedup

namespace PathRedup

/-! ## Sorting lemmas: `sortDesc` is a stable descending sort -/

theorem insertDesc_perm {α : Type} (key : α → ℚ) (x : α) (l : List α) :
    List.Perm (insertDesc key x l) (x :: l) := by
  induction l with
  | nil => exact List.Perm.refl _
  | cons y ys ih =>
    unfold insertDesc
    by_cases h : key y < key x
    · simp [h]
    · simp only [h, if_false]
      exact (ih.cons y).trans (List.Perm.swap x y ys)

theorem sortDesc_go_perm {α : Type} (key : α → ℚ) (l acc : List α) :
    List.Perm (l.foldl (fun acc x => insertDesc key x acc) acc) (acc ++ l) := by
  induction l generalizing acc with
  | nil => simp
  | cons x xs ih =>
    show List.Perm
      (xs.foldl (fun acc x => insertDesc key x acc) (insertDesc key x acc))
      (acc ++ x :: xs)
    exact (ih (insertDesc key x acc)).trans
      (((insertDesc_perm key x acc).append_right xs).trans List.perm_middle.symm)

theorem sortDesc_perm {α : Type} (key : α → ℚ) (l : List α) :
    List.Perm (sortDesc key l) l := by
  simpa using sortDesc_go_perm key l []

theorem insertDesc_sorted {α : Type} (key : α → ℚ) (x : α) (l : List α)
    (hl : List.Sorted (fun a b => key b ≤ key a) l) :
    List.Sorted (fun a b => key b ≤ key a) (insertDesc key x l) := by
  induction l with
  | nil => simp [insertDesc]
  | cons y ys ih =>
    rw [List.sorted_cons] at hl
    unfold insertDesc
    by_cases h : key y < key x
    · simp only [h, if_true]
      rw [List.sorted_cons]
      refine ⟨?_, List.sorted_cons.mpr hl⟩
      intro b hb
      rcases List.mem_cons.mp hb with rfl | hb
      · exact le_of_lt h
      · exact le_trans (hl.1 b hb) (le_of_lt h)
    · simp only [h, if_false]
      rw [List.sorted_cons]
      refine ⟨?_, ih hl.2⟩
      intro b hb
      rcases List.mem_cons.mp ((insertDesc_perm key x ys).mem_iff.mp hb) with rfl | hb
      · exact le_of_not_lt h
      · exact hl.1 b hb

theorem sortDesc_go_sorted {α : Type} (key : α → ℚ) (l acc : List α)
    (hacc : List.Sorted (fun a b => key b ≤ key a) acc) :
    List.Sorted (fun a b => key b ≤ key a)
      (l.foldl (fun acc x => insertDesc key x acc) acc) := by
  induction l generalizing acc with
  | nil => exact hacc
  | cons x xs ih => exact ih _ (insertDesc_sorted key x acc hacc)

theorem sortDesc_sorted {α : Type} (key : α → ℚ) (l : List α) :
    List.Sorted (fun a b => key b ≤ key a) (sortDesc key l) :=
  sortDesc_go_sorted key l [] (List.sorted_nil)

theorem insertDesc_filter {α : Type} (key : α → ℚ) (x : α) (l : List α) (s : ℚ)
    (hl : List.Sorted (fun a b => key b ≤ key a) l) :
    (insertDesc key x l).filter (fun c => key c = s) =
      l.filter (fun c => key c = s) ++ (if key x = s then [x] else []) := by
  induction l with
  | nil => by_cases hx : key x = s <;> simp [insertDesc, hx]
  | cons y ys ih =>
    rw [List.sorted_cons] at hl
    unfold insertDesc
    by_cases h : key y < key x
    · simp only [h, if_true]
      by_cases hx : key x = s
      · have hnil : (y :: ys).filter (fun c => key c = s) = [] := by
          rw [List.filter_eq_nil_iff]
          intro a ha
          have : key a ≤ key y := by
            rcases List.mem_cons.mp ha with rfl | ha
            · exact le_refl _
            · exact hl.1 a ha
          have : key a < key x := lt_of_le_of_lt this h
          simp only [decide_eq_true_eq]
          intro has
          rw [has, ← hx] at this
          exact lt_irrefl _ this
        rw [List.filter_cons_of_pos (by simpa using hx), hnil]
        simp [hx]
      · rw [List.filter_cons_of_neg (by simpa using hx)]
        simp [hx]
    · simp only [h, if_false]
      by_cases hy : key y = s
      · rw [List.filter_cons_of_pos (by simpa using hy),
          List.filter_cons_of_pos (by simpa using hy), ih hl.2, List.cons_append]
      · rw [List.filter_cons_of_neg (by simpa using hy),
          List.filter_cons_of_neg (by simpa using hy), ih hl.2]

theorem sortDesc_go_filter {α : Type} (key : α → ℚ) (l acc : List α) (s : ℚ)
    (hacc : List.Sorted (fun a b => key b ≤ key a) acc) :
    (l.foldl (fun acc x => insertDesc key x acc) acc).filter (fun c => key c = s)
      = acc.filter (fun c => key c = s) ++ l.filter (fun c => key c = s) := by
  induction l generalizing acc with
  | nil => simp
  | cons x xs ih =>
    show ((xs.foldl (fun acc x => insertDesc key x acc)
      (insertDesc key x acc)).filter (fun c => key c = s)) = _
    rw [ih _ (insertDesc_sorted key x acc hacc), insertDesc_filter key x acc s hacc]
    by_cases hx : key x = s
    · rw [List.filter_cons_of_pos (by simpa using hx)]
      simp [hx]
    · rw [List.filter_cons_of_neg (by simpa using hx)]
      simp [hx]

/-- Stability of `sortDesc`: the subsequence at any one key value is the
input's subsequence at that value, unchanged in order. -/
theorem sortDesc_filter {α : Type} (key : α → ℚ) (l : List α) (s : ℚ) :
    (sortDesc key l).filter (fun c => key c = s) =
      l.filter (fun c => key c = s) := by
  simpa using sortDesc_go_filter key l [] s List.sorted_nil

/-! ## Claims -/

/-- C1: in the check operation, `candidate_dict` composed with the column
order of `topk_by_vector`'s SELECT does NOT feed each stored field to its
matching feature slot: the dict's "city" key holds the stored addr_line
column (row[7]) and its "state" key the stored city column (row[8]), while
the addr_line and postal_code keys are absent, so feature 6 (index 5) and
feature 9 (index 8) are computed against None.  At a concrete candidate
whose stored address line and postal code equal the query's, the code
computes 0.0 for both features where the claim prescribes 1.0. -/
theorem c1_candidate_dict_column_shift :
    (∀ row : TopkRow,
      (candidate_dict row).fields.city = row.addr_line
      ∧ (candidate_dict row).fields.state = row.city
      ∧ (candidate_dict row).fields.addr_line = none
      ∧ (candidate_dict row).fields.postal_code = none)
    ∧ (∀ (qf cf : IdentityFields) (v : ℚ),
      (feature_row qf cf v).getD 5 0 = addr_overlap qf.addr_line cf.addr_line
      ∧ (feature_row qf cf v).getD 6 0 = jw qf.city cf.city
      ∧ (feature_row qf cf v).getD 7 0 = jw qf.state cf.state
      ∧ (feature_row qf cf v).getD 8 0 = pincode_match qf.postal_code cf.postal_code)
    ∧ (feature_row c1Query (candidate_dict c1Row).fields 0).getD 5 0 = 0
    ∧ (feature_row c1Query (candidate_dict c1Row).fields 0).getD 8 0 = 0
    ∧ addr_overlap c1Query.addr_line c1Row.addr_line = 1
    ∧ pincode_match c1Query.postal_code c1Row.postal_code = 1 := by
  refine ⟨fun row => ⟨rfl, rfl, rfl, rfl⟩, fun qf cf v => ⟨rfl, rfl, rfl, rfl⟩,
    ?_, ?_, ?_, ?_⟩
  · decide
  · decide
  · show addr_overlap (some "mg rd") (some "mg rd") = 1
    have h1 : (tokens (some "mg rd")).toFinset = ({"mg", "rd"} : Finset String) := by
      decide
    simp only [addr_overlap, h1]
    rw [if_neg (by decide), Finset.inter_self, Finset.union_self,
      show ({"mg", "rd"} : Finset String).card = 2 from by decide]
    norm_num
  · decide

/-- C3 counterexample: in a fresh process state, load then save then load on
the same path returns the stale rule-based fallback, not the model just
saved, even though the saved artifact is on disk. -/
theorem c3_stale_cache_counterexample :
    (load_model "model.bin"
        (load_model "model.bin" [] []).2
        (save_model (Model.trained 1) "model.bin" [])).1 = Model.ruleBased
    ∧ (load_model "model.bin"
        (load_model "model.bin" [] []).2
        (save_model (Model.trained 1) "model.bin" [])).1 ≠ Model.trained 1
    ∧ pathLookup (save_model (Model.trained 1) "model.bin" []) "model.bin"
        = some (Model.trained 1) := by
  decide

/-- C3, amended: `save_model` writes the artifact to disk and leaves the
cache untouched, so a later `load_model(path)` returns the previously cached
model when the path was cached before the save, and the newly saved model
only when it was not. -/
theorem c3_save_model_cache_amended (path : String)
    (cache disk : List (String × Model)) (m : Model) :
    (load_model path cache (save_model m path disk)).1 =
      (match pathLookup cache path with | some m0 => m0 | none => m)
    ∧ save_model m path disk = (path, m) :: disk := by
  refine ⟨?_, rfl⟩
  unfold load_model
  cases h : pathLookup cache path with
  | some m0 => rfl
  | none => simp [pathLookup, save_model, List.find?]

set_option maxRecDepth 4096 in
/-- C4: the `chunk_size` parameter (default 10000) governs the flush
threshold only when the input rows carry precomputed vectors; in the
in-process embedding path the embedding block reassigns `chunk_size = 64`,
so a run of 65 pairs flushes an intermediate chunk of 64 instead of a single
final chunk of 65. -/
theorem c4_chunk_size_shadowed :
    effective_chunk_size false 10000 = 64
    ∧ effective_chunk_size true 10000 = 10000
    ∧ (pair_chunks false 10000 (List.range 65)).length = 2
    ∧ ((pair_chunks false 10000 (List.range 65)).getD 0 []).length = 64
    ∧ (pair_chunks true 10000 (List.range 65)).length = 1
    ∧ ((pair_chunks true 10000 (List.range 65)).getD 0 []).length = 65 := by
  refine ⟨rfl, rfl, ?_, ?_, ?_, ?_⟩ <;> decide

/-- C6: a feature row whose 5th entry (gov-id exact match) is 1.0 gets
positive-class probability at least 0.99 from `RuleBasedClassifier` composed
with the module-level `predict_proba`, whatever the other nine features. -/
theorem c6_govid_dominates (vsim name_sim phone_m email_m addr_ov city_sim
    state_sim pincode_m dob_delta : ℚ) :
    ∃ p, predict_proba_pos [[vsim, name_sim, phone_m, email_m, 1, addr_ov,
        city_sim, state_sim, pincode_m, dob_delta]] = some [p]
      ∧ 99/100 ≤ p := by
  refine ⟨99/100, ?_, le_refl _⟩
  simp [predict_proba_pos, rule_predict_proba, rule_predict_proba_row,
    rule_based_score]

/-- C7: a check whose retrieval returns zero rows returns exactly
`{is_duplicate: false, score: 0.0, best_match: null, candidates: []}`. -/
theorem c7_empty_retrieval_decision (q : IdentityFields)
    (scoreRow : List ℚ → ℚ) (threshold : ℚ) :
    check_duplicate q [] scoreRow threshold =
      { is_duplicate := false, best_match := none, score := 0, candidates := [] } :=
  rfl

/-- C8: `train_ranker.py` imports `ensure_query_identity_table` from
`app.db`, which defines no such name, so importing the module (and hence
calling `main`) raises ImportError; the missing-file branch that would
return the structured failure is in the source but unreachable. -/
theorem c8_import_error_unreachable_branch (p : String) :
    "ensure_query_identity_table" ∈ train_ranker_db_imports
    ∧ "ensure_query_identity_table" ∉ app_db_defs
    ∧ train_ranker_missing_branch false p =
        some { success := false, message := "Training data not found: " ++ p } := by
  exact ⟨by decide, by decide, rfl⟩

/-- C9: `to_vec_array`, and hence `topk_by_vector`, errors exactly when the
query vector's length differs from `Config.VECTOR_DIM`; a vector of exactly
that length always passes the check. -/
theorem c9_dim_check (engine : List ℚ → Nat → List TopkRow) (v : List ℚ)
    (k : Nat) :
    ((∃ e, to_vec_array v = Except.error e) ↔ v.length ≠ Config.VECTOR_DIM)
    ∧ ((∃ w, to_vec_array v = Except.ok w) ↔ v.length = Config.VECTOR_DIM)
    ∧ ((∃ e, topk_by_vector engine v k = Except.error e) ↔
        v.length ≠ Config.VECTOR_DIM)
    ∧ ((∃ rows, topk_by_vector engine v k = Except.ok rows) ↔
        v.length = Config.VECTOR_DIM) := by
  by_cases h : v.length = Config.VECTOR_DIM <;>
    simp [to_vec_array, topk_by_vector, Except.map, h]

/-- C2: with at least one retrieved candidate, the decision's candidate list
is the stable descending-by-score sort of the scored candidates truncated to
10; the decision's score is the best (maximal) candidate score; is_duplicate
is exactly (best score >= threshold); ties keep retrieval order (the
subsequence at any fixed score value is unchanged). -/
theorem c2_check_duplicate_decision (q : IdentityFields) (rows : List TopkRow)
    (scoreRow : List ℚ → ℚ) (threshold s : ℚ) (c : ScoredCand)
    (hrows : rows ≠ [])
    (hc : c ∈ scored_candidates q rows scoreRow) :
    (check_duplicate q rows scoreRow threshold).candidates
        = (sortDesc ScoredCand.score (scored_candidates q rows scoreRow)).take 10
    ∧ (check_duplicate q rows scoreRow threshold).candidates.length ≤ 10
    ∧ List.Sorted (fun a b => b.score ≤ a.score)
        (sortDesc ScoredCand.score (scored_candidates q rows scoreRow))
    ∧ List.Sorted (fun a b => b.score ≤ a.score)
        (check_duplicate q rows scoreRow threshold).candidates
    ∧ (sortDesc ScoredCand.score (scored_candidates q rows scoreRow)).filter
          (fun x => x.score = s)
        = (scored_candidates q rows scoreRow).filter (fun x => x.score = s)
    ∧ (check_duplicate q rows scoreRow threshold).best_match
        = (sortDesc ScoredCand.score (scored_candidates q rows scoreRow)).head?
    ∧ (check_duplicate q rows scoreRow threshold).score
        = ((sortDesc ScoredCand.score (scored_candidates q rows scoreRow)).map
            ScoredCand.score).headD 0
    ∧ c.score ≤ (check_duplicate q rows scoreRow threshold).score
    ∧ (check_duplicate q rows scoreRow threshold).is_duplicate
        = decide (threshold ≤ (check_duplicate q rows scoreRow threshold).score) := by
  have hne : (scored_candidates q rows scoreRow).isEmpty = false := by
    cases rows with
    | nil => exact absurd rfl hrows
    | cons r rs => simp [scored_candidates]
  have hsne : sortDesc ScoredCand.score (scored_candidates q rows scoreRow) ≠ [] := by
    intro h0
    have hp := sortDesc_perm ScoredCand.score (scored_candidates q rows scoreRow)
    rw [h0] at hp
    rw [hp.symm.eq_nil] at hne
    simp at hne
  obtain ⟨b, rest, hs⟩ : ∃ b rest,
      sortDesc ScoredCand.score (scored_candidates q rows scoreRow) = b :: rest := by
    cases h0 : sortDesc ScoredCand.score (scored_candidates q rows scoreRow) with
    | nil => exact absurd h0 hsne
    | cons b rest => exact ⟨b, rest, rfl⟩
  have hd : check_duplicate q rows scoreRow threshold =
      { is_duplicate := decide (threshold ≤ b.score), best_match := some b
        score := b.score, candidates := (b :: rest).take 10 } := by
    simp [check_duplicate, hne, hs]
  refine ⟨?_, ?_, sortDesc_sorted _ _, ?_, sortDesc_filter _ _ _, ?_, ?_, ?_, ?_⟩
  · rw [hd, hs]
  · rw [hd]
    exact List.length_take_le _ _
  · rw [hd]
    exact List.Pairwise.sublist (List.take_sublist _ _)
      (by simpa [hs] using
        sortDesc_sorted ScoredCand.score (scored_candidates q rows scoreRow))
  · rw [hd, hs]
    rfl
  · rw [hd, hs]
    rfl
  · rw [hd]
    have hcs : c ∈ b :: rest := by
      rw [← hs]
      exact (sortDesc_perm ScoredCand.score
        (scored_candidates q rows scoreRow)).mem_iff.mpr hc
    rcases List.mem_cons.mp hcs with rfl | hcs
    · exact le_refl _
    · have hsorted := sortDesc_sorted ScoredCand.score (scored_candidates q rows scoreRow)
      rw [hs] at hsorted
      exact List.rel_of_sorted_cons hsorted c hcs
  · rw [hd]

/-- C2 witness: the decision properties at a concrete one-candidate
retrieval, scored by a constant classifier against the default threshold. -/
theorem c2_check_duplicate_decision_witness :
    (check_duplicate c2Query [c2Row] c2Score Config.THRESHOLD).candidates
        = (sortDesc ScoredCand.score (scored_candidates c2Query [c2Row] c2Score)).take 10
    ∧ (check_duplicate c2Query [c2Row] c2Score Config.THRESHOLD).candidates.length ≤ 10
    ∧ List.Sorted (fun a b => b.score ≤ a.score)
        (sortDesc ScoredCand.score (scored_candidates c2Query [c2Row] c2Score))
    ∧ List.Sorted (fun a b => b.score ≤ a.score)
        (check_duplicate c2Query [c2Row] c2Score Config.THRESHOLD).candidates
    ∧ (sortDesc ScoredCand.score (scored_candidates c2Query [c2Row] c2Score)).filter
          (fun x => x.score = 1/2)
        = (scored_candidates c2Query [c2Row] c2Score).filter (fun x => x.score = 1/2)
    ∧ (check_duplicate c2Query [c2Row] c2Score Config.THRESHOLD).best_match
        = (sortDesc ScoredCand.score (scored_candidates c2Query [c2Row] c2Score)).head?
    ∧ (check_duplicate c2Query [c2Row] c2Score Config.THRESHOLD).score
        = ((sortDesc ScoredCand.score (scored_candidates c2Query [c2Row] c2Score)).map
            ScoredCand.score).headD 0
    ∧ c2Cand.score ≤ (check_duplicate c2Query [c2Row] c2Score Config.THRESHOLD).score
    ∧ (check_duplicate c2Query [c2Row] c2Score Config.THRESHOLD).is_duplicate
        = decide (Config.THRESHOLD ≤
            (check_duplicate c2Query [c2Row] c2Score Config.THRESHOLD).score) :=
  c2_check_duplicate_decision c2Query [c2Row] c2Score Config.THRESHOLD (1/2) c2Cand
    (List.cons_ne_nil _ _) (List.mem_cons_self _ _)

/-- C5: per query row of a duplicate cluster the generator emits at most
min(n-1, max_pos_per_query) positive pairs, each against another cluster
member, and at most one hard-negative pair whose candidate id is never a
member of the query's cluster; clusters of size at most 1 emit nothing. -/
theorem c5_pair_emission_bounds (ids : List Nat) (cid : Nat)
    (cands : List (Nat × ℚ)) (sample : List Nat → Nat → List Nat) (m : Nat)
    (pp pn : Nat × Nat) (i : Nat) (cands1 : List (Nat × ℚ))
    (sample1 : List Nat → Nat → List Nat) (maxPos1 : Option Nat)
    (hmem : cid ∈ ids)
    (hlen : ∀ l k, k ≤ l.length → (sample l k).length = k)
    (hsub : ∀ l k, sample l k ⊆ l)
    (hpp : pp ∈ (emitted_for_query ids cid sample (some m)
        (hard_negative cands ids)).filter (fun p => p.2 = 1))
    (hpn : pn ∈ (emitted_for_query ids cid sample (some m)
        (hard_negative cands ids)).filter (fun p => p.2 = 0)) :
    ((emitted_for_query ids cid sample (some m)
        (hard_negative cands ids)).filter (fun p => p.2 = 1)).length
        ≤ min (ids.length - 1) m
    ∧ ((emitted_for_query ids cid sample (some m)
        (hard_negative cands ids)).filter (fun p => p.2 = 0)).length ≤ 1
    ∧ pp.1 ∈ ids ∧ pp.1 ≠ cid
    ∧ pn.1 ∉ ids
    ∧ group_pairs [] cands1 sample1 maxPos1 = []
    ∧ group_pairs [i] cands1 sample1 maxPos1 = [] := by
  have hsplit : emitted_for_query ids cid sample (some m) (hard_negative cands ids)
      = (if m < (ids.filter (fun x => x ≠ cid)).length then
            sample (ids.filter (fun x => x ≠ cid)) m
          else ids.filter (fun x => x ≠ cid)).map (fun cand => (cand, 1))
        ++ (match hard_negative cands ids with
            | some n => [(n, 0)] | none => []) := rfl
  have hposf1 : ∀ l : List Nat,
      (l.map (fun cand => (cand, 1))).filter (fun p : Nat × Nat => p.2 = 1)
        = l.map (fun cand => (cand, 1)) := by
    intro l
    refine List.filter_eq_self.mpr ?_
    intro a ha
    obtain ⟨cand, _, rfl⟩ := List.mem_map.mp ha
    simp
  have hposf0 : ∀ l : List Nat,
      (l.map (fun cand => (cand, 1))).filter (fun p : Nat × Nat => p.2 = 0) = [] := by
    intro l
    refine List.filter_eq_nil_iff.mpr ?_
    intro a ha
    obtain ⟨cand, _, rfl⟩ := List.mem_map.mp ha
    simp
  have hnegf1 : ((match hard_negative cands ids with
      | some n => [(n, 0)] | none => []) : List (Nat × Nat)).filter
        (fun p => p.2 = 1) = [] := by
    cases hard_negative cands ids <;> simp
  have hnegf0 : ((match hard_negative cands ids with
      | some n => [(n, 0)] | none => []) : List (Nat × Nat)).filter
        (fun p => p.2 = 0)
      = (match hard_negative cands ids with | some n => [(n, 0)] | none => []) := by
    cases hard_negative cands ids <;> simp
  have hP0 : (ids.filter (fun x => x ≠ cid)).length < ids.length :=
    List.length_filter_lt_length_iff_exists.mpr ⟨cid, hmem, by simp⟩
  have hppfact : pp.1 ∈ ids ∧ pp.1 ≠ cid := by
    rw [hsplit, List.filter_append, hposf1, hnegf1, List.append_nil] at hpp
    obtain ⟨cand, hcand, rfl⟩ := List.mem_map.mp hpp
    have hcand0 : cand ∈ ids.filter (fun x => x ≠ cid) := by
      by_cases hm : m < (ids.filter (fun x => x ≠ cid)).length
      · rw [if_pos hm] at hcand
        exact hsub _ _ hcand
      · rwa [if_neg hm] at hcand
    have hf := List.mem_filter.mp hcand0
    exact ⟨hf.1, by simpa using hf.2⟩
  have hpnfact : pn.1 ∉ ids := by
    rw [hsplit, List.filter_append, hposf0, hnegf0, List.nil_append] at hpn
    cases hn : hard_negative cands ids with
    | none =>
      rw [hn] at hpn
      simp at hpn
    | some n =>
      rw [hn] at hpn
      have hpn1 : pn = (n, 0) := by simpa using hpn
      have hfound := List.find?_some hn
      rw [hpn1]
      simpa using hfound
  refine ⟨?_, ?_, hppfact.1, hppfact.2, hpnfact,
    by simp [group_pairs], by simp [group_pairs]⟩
  · rw [hsplit, List.filter_append, hposf1, hnegf1, List.append_nil,
      List.length_map]
    by_cases hm : m < (ids.filter (fun x => x ≠ cid)).length
    · rw [if_pos hm, hlen _ _ (le_of_lt hm)]
      omega
    · rw [if_neg hm]
      omega
  · rw [hsplit, List.filter_append, hposf0, hnegf0, List.nil_append]
    cases hard_negative cands ids <;> simp

/-- C5 witness: the bounds at a concrete cluster {1,2,3} with query 1, a
take-a-prefix sampler, cap 5, the in-memory id/distance table
[(9,1),(2,0)] (hard negative 9), positive pair (2,1) and negative pair
(9,0), plus the empty and singleton clusters emitting nothing. -/
theorem c5_pair_emission_bounds_witness :
    ((emitted_for_query [1, 2, 3] 1 takeSample (some 5)
        (hard_negative [(9, 1), (2, 0)] [1, 2, 3])).filter
          (fun p => p.2 = 1)).length ≤ min ([1, 2, 3].length - 1) 5
    ∧ ((emitted_for_query [1, 2, 3] 1 takeSample (some 5)
        (hard_negative [(9, 1), (2, 0)] [1, 2, 3])).filter
          (fun p => p.2 = 0)).length ≤ 1
    ∧ ((2, 1) : Nat × Nat).1 ∈ [1, 2, 3] ∧ ((2, 1) : Nat × Nat).1 ≠ 1
    ∧ ((9, 0) : Nat × Nat).1 ∉ [1, 2, 3]
    ∧ group_pairs [] [(7, 2)] takeSample none = []
    ∧ group_pairs [4] [(7, 2)] takeSample none = [] :=
  c5_pair_emission_bounds [1, 2, 3] 1 [(9, 1), (2, 0)] takeSample 5 (2, 1) (9, 0)
    4 [(7, 2)] takeSample none
    (by decide)
    (fun l k h => by
      simp only [takeSample, List.length_take]
      omega)
    (fun l k => List.take_subset k l)
    (by decide)
    (by decide)

/-- C10: the exact-match features (phone, email, gov id, all `exact_match`)
and the postal-code feature return 0.0 whenever either side is None or the
empty string, even for two equal empty values. -/
theorem c10_empty_never_matches (a b : Option String) :
    phone_match a b = exact_match a b
    ∧ email_match a b = exact_match a b
    ∧ govid_match a b = exact_match a b
    ∧ exact_match none b = 0 ∧ exact_match a none = 0
    ∧ exact_match (some "") b = 0 ∧ exact_match a (some "") = 0
    ∧ pincode_match none b = 0 ∧ pincode_match a none = 0
    ∧ pincode_match (some "") b = 0 ∧ pincode_match a (some "") = 0
    ∧ exact_match (some "") (some "") = 0
    ∧ pincode_match (some "") (some "") = 0 := by
  refine ⟨rfl, rfl, rfl, ?_, ?_, ?_, ?_, ?_, ?_, ?_, ?_, ?_, ?_⟩ <;>
    simp [exact_match, pincode_match, truthy,
      show pyStrip "" = "" from by decide]

end PathRedup
